import Mathlib

/-!
Verification of the async-uring runtime core: a shallow embedding of the
operation-slot state machine, its packed atomic-word encoding, the submission
path, the worker close path, the cleanup stream and the worker channel,
together with theorems about the behaviour each component exhibits.

Machine integers are modelled as `Nat` (u32/u64, with explicit `% 2^w` where
the source truncates or wraps) and `Int` (i32). Fallible operations return an
explicit result type. Atomic cells are modelled by their current value;
single calls to the source functions become pure state transformers.
-/

namespace AsyncUring

/-- The crate error enum (`src/lib.rs::Error`): `Io` carries an OS errno. -/
inductive UError where
  | io (errno : Int)
  | tooManyResources
  | bufferTooLarge
  | resourceClosing
  | noRuntime
deriving DecidableEq

/-- `Result<T, Error>` of the crate (`src/lib.rs::Result`). -/
inductive RResult (α : Type) where
  | ok (val : α)
  | err (e : UError)
deriving DecidableEq

/-- `std::task::Poll`. -/
inductive PollRes (α : Type) where
  | ready (val : α)
  | pending
deriving DecidableEq

/-- A task waker, identified abstractly. `Waker::noop()` is the waker with id 0. -/
structure Waker where
  id : Nat
deriving DecidableEq

/-- `Waker::noop()`. -/
def Waker.noop : Waker := ⟨0⟩

/-- `rt/operation.rs::EventData`: the `(resource, op id)` pair ferried through
the kernel as the 64-bit user-data word. Both fields are u32. -/
structure EventData where
  resource : Nat
  id : Nat
deriving DecidableEq

/-- `impl From<EventData> for u64`: `(u64::from(top) << 32) | u64::from(bottom)`
with `top = resource`, `bottom = id`. -/
def EventData.toU64 (e : EventData) : Nat :=
  (e.resource <<< 32) ||| e.id

/-- `impl From<u64> for EventData`: `((value >> 32) as u32, value as u32)`;
the `as u32` casts truncate modulo 2^32. -/
def EventData.ofU64 (v : Nat) : EventData :=
  ⟨(v >>> 32) % 2 ^ 32, v % 2 ^ 32⟩

/-- `rt/operation.rs::OperationCancelData` is `#[repr(align(8))] { wake: bool }`.
A live `Box<OperationCancelData>` is modelled by its address (`addr`, a u64,
8-byte aligned for any real allocation of this type) together with the boxed
contents (`wake`). -/
structure OperationCancelData where
  addr : Nat
  wake : Bool
deriving DecidableEq

/-- `rt/operation.rs::OperationState`. `Finished(i32)` doubles as the idle
state (slots start as `Finished(0)`). -/
inductive OperationState where
  | waiting
  | cancelled (payload : OperationCancelData)
  | finished (val : Int)
deriving DecidableEq

/-- `OperationState::cancel_data`. -/
def OperationState.cancel_data : OperationState → Option OperationCancelData
  | .cancelled x => some x
  | .waiting | .finished _ => none

/-- The `as i32` cast applied to a u64: keep the low 32 bits, read them as
two's-complement. -/
def toI32 (n : Nat) : Int :=
  if n % 2 ^ 32 < 2 ^ 31 then (n % 2 ^ 32 : Int) else (n % 2 ^ 32 : Int) - 2 ^ 32

/-- `impl From<OperationState> for u64`: pack `(ptr, tag)` as `ptr | tag`.
Waiting is `(0, 1)`; Finished is `((val as u64) << 3, 2)` where the i32 is
sign-extended to u64 and the shift wraps modulo 2^64; Cancelled is the box
address with tag 3. -/
def OperationState.toU64 : OperationState → Nat
  | .waiting => 0 ||| 1
  | .finished val => ((Int.toNat (val % 2 ^ 64) <<< 3) % 2 ^ 64) ||| 2
  | .cancelled payload => payload.addr ||| 3

/-- `impl From<u64> for OperationState`: split `value` into
`data = value & !0b111` and `tag = value & 0b111`, then match on the tag
(`1 => Waiting`, `2 => Finished((data >> 3) as i32)`,
`3 => Cancelled(Box::from_raw(data))`, otherwise `unreachable!`, modelled as
`none`). `mem` gives the heap contents (the wake flag) at each address and
stands for the dereference performed by `Box::from_raw`. -/
def OperationState.ofU64 (mem : Nat → Bool) (v : Nat) : Option OperationState :=
  match v &&& 7 with
  | 1 => some .waiting
  | 2 => some (.finished (toI32 ((v &&& (2 ^ 64 - 8)) >>> 3)))
  | 3 => some (.cancelled ⟨v &&& (2 ^ 64 - 8), mem (v &&& (2 ^ 64 - 8))⟩)
  | _ => none

/-- `rt/operation.rs::Operation<SIZE>` with `SIZE = 4` (the default): the
atomic state word plus the `OperationWakerList` cell array. -/
structure Operation where
  state : OperationState
  wakers : List Waker
deriving DecidableEq

/-- `Operation::new()`: state `Finished(0)`, every waker cell a noop. -/
def Operation.new : Operation :=
  ⟨.finished 0, List.replicate 4 Waker.noop⟩

instance : Inhabited Operation := ⟨Operation.new⟩

/-- First half of `Operation::register::<ID>`: the
`self.state.store(Waiting, Release)` line. Note this is an unconditional
store, and it happens before the waker cell is touched. -/
def Operation.registerStore (op : Operation) : Operation :=
  { op with state := .waiting }

/-- Second half of `Operation::register::<ID>`: write the context waker into
the cell at index `i` (`OperationWakerList::register`). -/
def Operation.registerWrite (i : Nat) (w : Waker) (op : Operation) : Operation :=
  { op with wakers := op.wakers.set i w }

/-- `Operation::register::<ID>`: store Waiting into the state word, then write
the waker into its cell, in that order. -/
def Operation.register (i : Nat) (w : Waker) (op : Operation) : Operation :=
  Operation.registerWrite i w (Operation.registerStore op)

/-- The observable effect of one `Operation::wake` call: the slot afterwards,
the wakers that were invoked (each invoked waker is replaced by a noop in the
cell array), and the cancellation payload freed by the final `drop(cancel)`. -/
structure WakeEffect where
  op : Operation
  woken : List Waker
  dropped : Option OperationCancelData
deriving DecidableEq

/-- `Operation::wake(val)`: swap the state word to `Finished(val)`
unconditionally, read the payload of a prior Cancelled state, invoke the
stored wakers when `cancel.as_ref().is_none_or(|x| x.wake)`, and drop the
payload at the end. -/
def Operation.wake (op : Operation) (val : Int) : WakeEffect :=
  let prior := op.state
  let swapped : Operation := { op with state := .finished val }
  let cancel := prior.cancel_data
  if cancel.all (fun x => x.wake) then
    { op := { swapped with wakers := List.replicate swapped.wakers.length Waker.noop },
      woken := swapped.wakers,
      dropped := cancel }
  else
    { op := swapped, woken := [], dropped := cancel }

/-- `rt/operation.rs::OperationPollState`: the shadow poll state a submitter
keeps per slot. -/
inductive OperationPollState where
  | idle
  | submitting
deriving DecidableEq

/-- `rt/operation.rs::Operations<SIZE = 4>`: the shared slot array plus the
submitter-local shadow array. -/
structure Operations where
  ops : List Operation
  submissions : List OperationPollState
deriving DecidableEq

/-- `Operations::new_from_size()`. -/
def Operations.new_from_size : Operations :=
  ⟨List.replicate 4 Operation.new, List.replicate 4 .idle⟩

/-- `impl Clone for Operations`: the slot array is shared (`Arc::clone`) but
the clone starts with every shadow reset to `Idle`. -/
def Operations.clone (t : Operations) : Operations :=
  ⟨t.ops, t.submissions.map fun _ => .idle⟩

/-- `Operations::get(id)`. -/
def Operations.get (t : Operations) (i : Nat) : Option Operation :=
  t.ops.get? i

/-- `poll_states().any(|x| matches!(x, OperationPollState::Submitting))`, the
test both the worker and the cleanup stream run over a snapshot. -/
def Operations.any_submitting (t : Operations) : Bool :=
  t.submissions.any fun s => match s with | .submitting => true | .idle => false

/-- The shadow poll state of slot `i` as the submitter reads it
(`self.submissions[ID as usize]`; indices are statically in bounds in the
source, out-of-range reads default to Idle here). -/
def Operations.shadow (t : Operations) (i : Nat) : OperationPollState :=
  t.submissions.getD i .idle

/-- The operation slot `i` (`self.ops[ID as usize]`; out-of-range reads
default to a fresh slot here, unreachable in the source). -/
def Operations.slot (t : Operations) (i : Nat) : Operation :=
  t.ops.getD i Operation.new

/-- `Operations::poll_submit::<ID>`: shadow `Idle` means no op was started;
shadow `Submitting` with slot `Finished(ret)` resets the shadow and returns
the result (`Err(io::Error::from_raw_os_error(-ret))` when negative, else
`Ok(ret as u32)`); any other slot state re-registers the waker and stays
Pending. -/
def Operations.poll_submit (t : Operations) (i : Nat) (w : Waker) :
    Operations × PollRes (Option (RResult Nat)) :=
  match t.shadow i with
  | .idle => (t, .ready none)
  | .submitting =>
    match (t.slot i).state with
    | .finished ret =>
      let t1 : Operations := { t with submissions := t.submissions.set i .idle }
      if ret < 0 then
        (t1, .ready (some (.err (.io (-ret)))))
      else
        (t1, .ready (some (.ok ret.toNat)))
    | _ =>
      ({ t with ops := t.ops.set i (Operation.register i w (t.slot i)) },
       .pending)

/-- `Operations::poll_wait_for::<ID>`: Ready when the shadow is Idle or the
slot has Finished; otherwise re-register and stay Pending. -/
def Operations.poll_wait_for (t : Operations) (i : Nat) (w : Waker) :
    Operations × PollRes Unit :=
  match t.shadow i with
  | .idle => (t, .ready ())
  | .submitting =>
    match (t.slot i).state with
    | .finished _ => (t, .ready ())
    | _ =>
      ({ t with ops := t.ops.set i (Operation.register i w (t.slot i)) },
       .pending)

/-- Outcome of one kernel `submit()` syscall (`io_uring::IoUring::submit`):
success drains the submission queue, failure carries the errno. -/
inductive KernelOutcome where
  | ok
  | errno (e : Int)
deriving DecidableEq

/-- `rt/mod.rs::UringData`, with the submission queue it guards: the `alive`
flag, the ring size (1024 in `build()`), and the entries currently queued.
Entries are the 64-bit user-data words they carry. -/
structure UringData where
  alive : Bool
  sqCapacity : Nat
  sq : List Nat
deriving DecidableEq

/-- `UringData::submit(entry)` under `sq_lock`: while the push fails (queue
full), call kernel `submit()` — an error is returned as-is (wrapped into
`Error::Io`), success drains the queue — then push and issue one final
unconditional `submit()` whose error also propagates. `kernel` is the oracle
of successive syscall outcomes; an exhausted oracle means every further
syscall succeeds. Returns the result, the updated ring and the unconsumed
oracle. -/
def UringData.submit (rt : UringData) (kernel : List KernelOutcome) (entry : Nat) :
    RResult Unit × UringData × List KernelOutcome :=
  if rt.sq.length < rt.sqCapacity then
    match kernel with
    | .errno e :: rest => (.err (.io e), { rt with sq := rt.sq ++ [entry] }, rest)
    | .ok :: rest => (.ok (), { rt with sq := rt.sq ++ [entry] }, rest)
    | [] => (.ok (), { rt with sq := rt.sq ++ [entry] }, [])
  else
    match kernel with
    | [] => (.ok (), { rt with sq := [entry] }, [])
    | .errno e :: rest => (.err (.io e), rt, rest)
    | .ok :: rest => UringData.submit { rt with sq := [] } rest entry

/-- `Operations::start_submit::<ID>`: first `op.register::<ID>(cx)` (store
Waiting, write the waker), then `rt.submit(entry)?` — an error propagates
with the shadow untouched — and only on success set the shadow to
`Submitting`. -/
def Operations.start_submit (t : Operations) (rt : UringData) (kernel : List KernelOutcome)
    (entry : Nat) (i : Nat) (w : Waker) :
    RResult Unit × Operations × UringData × List KernelOutcome :=
  let t1 : Operations :=
    { t with ops := t.ops.set i (Operation.register i w (t.slot i)) }
  match rt.submit kernel entry with
  | (.err e, rt1, k1) => (.err e, t1, rt1, k1)
  | (.ok _, rt1, k1) =>
    (.ok (), { t1 with submissions := t1.submissions.set i .submitting }, rt1, k1)

/-- `rt/inner.rs`-side view of a registered resource (`WorkerResource`): the
optional owned fd (by raw value), the shared `Operations`, and the contents
of the shared `closing: Arc<AtomicBool>` flag. -/
structure WorkerResource where
  fd : Option Nat
  ops : Operations
  closing : Bool
deriving DecidableEq

/-- `rt/resource.rs`-side user handle (`Resource`): the slab id and the shared
`Operations` (with the sender-local shadows as last seen by the sender). -/
structure Resource where
  id : Nat
  ops : Operations
deriving DecidableEq

/-- What happened to a resource and its fd during a `CloseResource` step. -/
inductive FdFate where
  | pushedToCleanup
  | releasedWithoutClose
  | closedByDrop
  | noFd
  | noEntry
deriving DecidableEq

/-- The `close!` macro of `UringRuntimeWorker::work`: remove the id from the
slab; if the removed entry has its closing flag set and holds an fd, release
the fd with `into_raw_fd()` (no close syscall — the kernel already closed
it); otherwise the entry (and any fd it still owns) is dropped, which closes
the fd through `OwnedFd`. -/
def closeEntry (slab : List (Nat × WorkerResource)) (id : Nat) :
    List (Nat × WorkerResource) × FdFate :=
  match slab.find? (fun p => p.1 == id) with
  | none => (slab, .noEntry)
  | some (_, val) =>
    let slab1 := slab.filter fun p => p.1 != id
    match val.closing, val.fd with
    | true, some _ => (slab1, .releasedWithoutClose)
    | false, some _ => (slab1, .closedByDrop)
    | _, none => (slab1, .noFd)

/-- The `WorkerMessage::CloseResource(resource)` arm of
`UringRuntimeWorker::work`: if any shadow poll state of the message snapshot
is `Submitting`, push the resource onto the `closing` vector; otherwise run
`close!` on its id. Returns the new slab, the new closing vector and the
fate. -/
def closeResourceArm (slab : List (Nat × WorkerResource)) (closing : List Resource)
    (r : Resource) :
    List (Nat × WorkerResource) × List Resource × FdFate :=
  if r.ops.any_submitting then
    (slab, closing ++ [r], .pushedToCleanup)
  else
    let res := closeEntry slab r.id
    (res.1, closing, res.2)

/-- `rt/cleanup_stream.rs::ClosingResource`: a closing resource plus the
`polled: [bool; 4]` bookkeeping. -/
structure ClosingResource where
  resource : Resource
  polled : List Bool
deriving DecidableEq

/-- `ClosingResource::new`. -/
def ClosingResource.new (r : Resource) : ClosingResource :=
  ⟨r, List.replicate 4 false⟩

/-- One `poll!(i)` step of `try_advance_polls`: skip a slot already polled
this round, otherwise mark it polled and run `poll_submit`; the second
component is false when the `ready!` bailed out with Pending. -/
def pollStep (cr : ClosingResource) (i : Nat) (w : Waker) : ClosingResource × Bool :=
  if cr.polled.getD i false then (cr, true)
  else
    let cr1 : ClosingResource := { cr with polled := cr.polled.set i true }
    match cr1.resource.ops.poll_submit i w with
    | (t, .pending) => ({ cr1 with resource := { cr1.resource with ops := t } }, false)
    | (t, .ready _) => ({ cr1 with resource := { cr1.resource with ops := t } }, true)

/-- `ClosingResource::try_advance_polls`: run `poll!(0)` … `poll!(3)`; if all
four are Ready this round, reset `polled` and report whether no shadow poll
state is still `Submitting`. -/
def ClosingResource.try_advance_polls (cr : ClosingResource) (w : Waker) :
    ClosingResource × PollRes Bool :=
  let s0 := pollStep cr 0 w
  if s0.2 = false then (s0.1, .pending) else
  let s1 := pollStep s0.1 1 w
  if s1.2 = false then (s1.1, .pending) else
  let s2 := pollStep s1.1 2 w
  if s2.2 = false then (s2.1, .pending) else
  let s3 := pollStep s2.1 3 w
  if s3.2 = false then (s3.1, .pending) else
  let cr4 : ClosingResource := { s3.1 with polled := List.replicate 4 false }
  (cr4, .ready (!cr4.resource.ops.any_submitting))

/-- `rt/cleanup_stream.rs::CleanupStream`. -/
structure CleanupStream where
  resources : List ClosingResource
deriving DecidableEq

/-- The loop body of `CleanupStream::poll_next`: advance each closing resource
in order; a Pending from `try_advance_polls` aborts the whole poll (`ready!`),
the first Ready(true) removes that resource and emits it, Ready(false) moves
on. Returns the updated list, the emitted resource if any, and whether the
loop aborted with Pending. -/
def cleanupGo (w : Waker) : List ClosingResource → List ClosingResource × Option Resource × Bool
  | [] => ([], none, false)
  | cr :: rest =>
    match cr.try_advance_polls w with
    | (cr1, .pending) => (cr1 :: rest, none, true)
    | (cr1, .ready true) => (rest, some cr1.resource, false)
    | (cr1, .ready false) =>
      let res := cleanupGo w rest
      (cr1 :: res.1, res.2.1, res.2.2)

/-- `impl Stream for CleanupStream`, `poll_next`: emit
`FinishResource(resource)` for the first resource whose `try_advance_polls`
returned Ready(true), else Pending. -/
def CleanupStream.poll_next (s : CleanupStream) (w : Waker) :
    CleanupStream × PollRes (Option Resource) :=
  match cleanupGo w s.resources with
  | (rs, some r, _) => (⟨rs⟩, .ready (some r))
  | (rs, none, _) => (⟨rs⟩, .pending)

/-- `rt/channel.rs` state: the locked queue, the sidecar `empty` flag, the
receiver-cached `len` from its last drain, the number of live senders
(`Arc::weak_count`), and whether the receiver itself is still alive (so
`Weak::upgrade` succeeds in `send`). -/
structure ChannelState (α : Type) where
  queue : List α
  empty : Bool
  len : Nat
  weakCount : Nat
  receiverAlive : Bool
deriving DecidableEq

/-- `ChannelRecv::get_msg`: pop the front under the lock, cache the new
length, and set `empty` when the queue drained. -/
def getMsg (st : ChannelState α) : ChannelState α × Option α :=
  let msg := st.queue.head?
  let q := st.queue.tail
  ({ st with
      queue := q
      len := q.length
      empty := if q.length = 0 then true else st.empty },
   msg)

/-- `impl Stream for ChannelRecv`, `poll_next`: serve from the cached length
first; if the cache is empty and every sender dropped, end the stream; if the
`empty` flag is set, register the waker and stay Pending; otherwise drain. -/
def ChannelRecv.poll_next (st : ChannelState α) : ChannelState α × PollRes (Option α) :=
  if st.len > 0 then
    let res := getMsg st
    (res.1, .ready res.2)
  else if st.weakCount = 0 then
    (st, .ready none)
  else if st.empty then
    (st, .pending)
  else
    let res := getMsg st
    (res.1, .ready res.2)

/-- `ChannelSend::send`: fail with `NoRuntime` when the receiver is gone
(`Weak::upgrade` returns None); otherwise push under the lock, clear the
`empty` flag and notify the consumer waker. -/
def ChannelSend.send (st : ChannelState α) (msg : α) : RResult Unit × ChannelState α :=
  if st.receiverAlive then
    (.ok (), { st with queue := st.queue ++ [msg], empty := false })
  else
    (.err .noRuntime, st)

/-- `rt/mod.rs::UringDataHandle`: the shared `Arc<UringData>`. -/
structure UringDataHandle where
  data : UringData
deriving DecidableEq

/-- `UringDataHandle::load`: `alive.load().then_some(&data)`. -/
def UringDataHandle.load (h : UringDataHandle) : Option UringData :=
  if h.data.alive then some h.data else none

/-- `UringDataHandle::destroy`: store false into `alive`. -/
def UringDataHandle.destroy (h : UringDataHandle) : UringDataHandle :=
  ⟨{ h.data with alive := false }⟩

/-- `impl Stream for NopStream`, `poll_next` (`src/nop.rs`): short-circuit to
`NoRuntime` when `rt.load()` is None; otherwise `ready!(poll_submit)` on the
nop slot (`NOP_OP_ID = 0`), forwarding a finished result, or on None build a
`Nop` SQE whose user-data is `EventData { resource: id, id: 0 }` and
`start_submit` it. -/
def NopStream.poll_next (h : UringDataHandle) (resourceId : Nat) (t : Operations)
    (kernel : List KernelOutcome) (w : Waker) :
    Operations × UringDataHandle × List KernelOutcome × PollRes (Option (RResult Nat)) :=
  match h.load with
  | none => (t, h, kernel, .ready (some (.err .noRuntime)))
  | some rt =>
    match t.poll_submit 0 w with
    | (t1, .pending) => (t1, h, kernel, .pending)
    | (t1, .ready (some (.ok val))) => (t1, h, kernel, .ready (some (.ok val)))
    | (t1, .ready (some (.err e))) => (t1, h, kernel, .ready (some (.err e)))
    | (t1, .ready none) =>
      let entry := EventData.toU64 ⟨resourceId, 0⟩
      match t1.start_submit rt kernel entry 0 w with
      | (.err e, t2, rt1, k1) => (t2, ⟨rt1⟩, k1, .ready (some (.err e)))
      | (.ok _, t2, rt1, k1) => (t2, ⟨rt1⟩, k1, .pending)

/-! Helper lemmas about the bit-level operations used by the encodings. -/

theorem testBit_div8 (x j : Nat) : Nat.testBit (x / 8) j = Nat.testBit x (3 + j) := by
  have h : x / 8 = x >>> 3 := by rw [Nat.shiftRight_eq_div_pow]
  rw [h, Nat.testBit_shiftRight]

/-- Masking with `0b111` on a u64 keeps the value modulo 8. -/
theorem and_low3 (x : Nat) : x &&& 7 = x % 8 := by
  have := Nat.and_pow_two_sub_one_eq_mod x 3
  norm_num at this
  exact this

/-- Masking with `!0b111` on a u64 clears the low three bits. -/
theorem mask_low3 (x : Nat) (hx : x < 2 ^ 64) : x &&& (2 ^ 64 - 8) = x / 8 * 8 := by
  apply Nat.eq_of_testBit_eq
  intro i
  have h7 : (7 : Nat) < 2 ^ 64 := by norm_num
  rw [Nat.testBit_and]
  have hmask : Nat.testBit (2 ^ 64 - 8) i = (decide (i < 64) && ! Nat.testBit 7 i) := by
    have := Nat.testBit_two_pow_sub_succ h7 i
    norm_num at this ⊢
    exact this
  have h7b : Nat.testBit 7 i = decide (i < 3) := by
    have := Nat.testBit_two_pow_sub_one 3 i
    norm_num at this
    exact this
  have hdiv : x / 8 * 8 = 2 ^ 3 * (x / 8) := by ring
  rw [hmask, h7b, hdiv, Nat.testBit_mul_pow_two]
  by_cases hi3 : i < 3
  · have h1 : decide (i < 3) = true := by simp [hi3]
    have h2 : decide (3 ≤ i) = false := by simp; omega
    simp [h1, h2]
  · have h1 : decide (i < 3) = false := by simp [hi3]
    have h2 : decide (3 ≤ i) = true := by simp; omega
    by_cases hi64 : i < 64
    · have h3 : decide (i < 64) = true := by simp [hi64]
      have h4 : Nat.testBit (x / 8) (i - 3) = Nat.testBit x i := by
        rw [testBit_div8]
        congr 1
        omega
      simp [h1, h2, h3, h4]
    · have h3 : decide (i < 64) = false := by simp [hi64]
      have hxi : Nat.testBit x i = false := by
        apply Nat.testBit_lt_two_pow
        calc x < 2 ^ 64 := hx
        _ ≤ 2 ^ i := Nat.pow_le_pow_right (by norm_num) (by omega)
      have hxd : Nat.testBit (x / 8) (i - 3) = false := by
        rw [testBit_div8]
        have h5 : 3 + (i - 3) = i := by omega
        rw [h5, hxi]
      simp [h1, h2, h3, hxi, hxd]

/-- Bitwise or of a multiple of 8 with a tag below 8 is plain addition. -/
theorem or_disjoint (a b : Nat) (ha : a % 8 = 0) (hb : b < 8) : a ||| b = a + b := by
  have h8 : (8 : Nat) = 2 ^ 3 := by norm_num
  have h : a = 8 * (a / 8) := by omega
  have hb3 : b < 2 ^ 3 := by omega
  rw [h, h8]
  exact (Nat.mul_add_lt_is_or hb3 (a / 8)).symm

theorem getD_set_self (l : List α) (i : Nat) (a d : α) :
    (l.set i a).getD i d = if i < l.length then a else d := by
  induction l generalizing i with
  | nil => simp [List.set]
  | cons x xs ih =>
    cases i with
    | zero => simp
    | succ n =>
      simp [Nat.succ_lt_succ_iff]
      simpa [List.getD] using ih n

/-! The claims. -/

/-- C9: EventData encode/decode is a round trip: for every pair of u32 values
`(r, o)`, decoding the u64 produced by encoding `EventData { resource: r,
id: o }` yields `resource = r` and `id = o`, and the encoded word carries `r`
in its high 32 bits and `o` in its low 32 bits. -/
theorem c9_eventdata_roundtrip (r o : Nat) (hr : r < 2 ^ 32) (ho : o < 2 ^ 32) :
    EventData.ofU64 (EventData.toU64 ⟨r, o⟩) = ⟨r, o⟩
    ∧ EventData.toU64 ⟨r, o⟩ = r * 2 ^ 32 + o := by
  have henc : EventData.toU64 ⟨r, o⟩ = r * 2 ^ 32 + o := by
    show (r <<< 32) ||| o = r * 2 ^ 32 + o
    calc (r <<< 32) ||| o = 2 ^ 32 * r ||| o := by rw [Nat.shiftLeft_eq, mul_comm]
    _ = 2 ^ 32 * r + o := (Nat.mul_add_lt_is_or ho r).symm
    _ = r * 2 ^ 32 + o := by ring
  refine ⟨?_, henc⟩
  rw [henc]
  have h1 : (r * 2 ^ 32 + o) >>> 32 = r := by
    rw [Nat.shiftRight_eq_div_pow]
    rw [show r * 2 ^ 32 + o = o + 2 ^ 32 * r by ring]
    rw [Nat.add_mul_div_left _ _ (by norm_num : 0 < 2 ^ 32)]
    rw [Nat.div_eq_of_lt ho]
    omega
  have h2 : (r * 2 ^ 32 + o) % 2 ^ 32 = o := by
    rw [show r * 2 ^ 32 + o = 2 ^ 32 * r + o by ring, Nat.mul_add_mod]
    exact Nat.mod_eq_of_lt ho
  show (⟨((r * 2 ^ 32 + o) >>> 32) % 2 ^ 32, (r * 2 ^ 32 + o) % 2 ^ 32⟩ : EventData) = ⟨r, o⟩
  rw [h1, h2, Nat.mod_eq_of_lt hr]

/-- Witness for C9 at a concrete input. -/
theorem c9_eventdata_roundtrip_witness :
    EventData.ofU64 (EventData.toU64 ⟨7, 9⟩) = ⟨7, 9⟩
    ∧ EventData.toU64 ⟨7, 9⟩ = 7 * 2 ^ 32 + 9 :=
  c9_eventdata_roundtrip 7 9 (by norm_num) (by norm_num)

/-- C5 counterexample: with the tag actually occupying the low THREE bits of
the word, a payload box that is 4-byte aligned but not 8-byte aligned does
not round trip — encoding the address 4 with tag `0b11` yields the word 7,
whose tag field decodes as 7, sending the decoder into its unreachable
branch (`none`), not back to the Cancelled state. -/
theorem c5_state_roundtrip_counterexample :
    OperationState.ofU64 (fun _ => false)
      (OperationState.toU64 (.cancelled ⟨4, false⟩)) = none
    ∧ OperationState.ofU64 (fun _ => false)
        (OperationState.toU64 (.cancelled ⟨4, false⟩)) ≠
      some (.cancelled ⟨4, false⟩) := by
  constructor
  · decide
  · decide

/-- C5 (amended): the OperationState/u64 encoding round-trips for `Waiting`,
for `Finished(i)` with `i ∈ {i32::MIN, -1, 0, 1, i32::MAX}`, and for
`Cancelled(box)` for any valid 8-byte-aligned box (the alignment
`OperationCancelData` actually guarantees via `#[repr(align(8))]`), with the
tag in the low THREE bits of the word (`0b001` Waiting, `0b010` Finished,
`0b011` Cancelled) and the decoder never reaching its unreachable branch on
such encoded words. `mem` models the heap, and `hmem` says the box contents
are intact when the decoder re-reads them. -/
theorem c5_state_roundtrip (mem : Nat → Bool) (p : OperationCancelData)
    (ha : p.addr % 8 = 0) (hlt : p.addr + 3 < 2 ^ 64) (hmem : mem p.addr = p.wake) :
    OperationState.ofU64 mem (OperationState.toU64 .waiting) = some .waiting
    ∧ OperationState.ofU64 mem (OperationState.toU64 (.finished (-2147483648))) =
        some (.finished (-2147483648))
    ∧ OperationState.ofU64 mem (OperationState.toU64 (.finished (-1))) =
        some (.finished (-1))
    ∧ OperationState.ofU64 mem (OperationState.toU64 (.finished 0)) =
        some (.finished 0)
    ∧ OperationState.ofU64 mem (OperationState.toU64 (.finished 1)) =
        some (.finished 1)
    ∧ OperationState.ofU64 mem (OperationState.toU64 (.finished 2147483647)) =
        some (.finished 2147483647)
    ∧ OperationState.ofU64 mem (OperationState.toU64 (.cancelled p)) =
        some (.cancelled p)
    ∧ OperationState.toU64 .waiting % 8 = 1
    ∧ (∀ v : Int, OperationState.toU64 (.finished v) % 8 = 2)
    ∧ OperationState.toU64 (.cancelled p) % 8 = 3 := by
  have henc : OperationState.toU64 (.cancelled p) = p.addr + 3 := by
    show p.addr ||| 3 = p.addr + 3
    exact or_disjoint p.addr 3 ha (by norm_num)
  have hfin : ∀ v : Int, OperationState.toU64 (.finished v) % 8 = 2 := by
    intro v
    show (((Int.toNat (v % 2 ^ 64) <<< 3) % 2 ^ 64) ||| 2) % 8 = 2
    set x := Int.toNat (v % 2 ^ 64) with hx
    have hsh : x <<< 3 = 8 * x := by rw [Nat.shiftLeft_eq]; ring
    have hmod : (8 * x) % 2 ^ 64 = 8 * (x % 2 ^ 61) := by
      have : (2 : Nat) ^ 64 = 8 * 2 ^ 61 := by norm_num
      rw [this, Nat.mul_mod_mul_left]
    have hm8 : ((x <<< 3) % 2 ^ 64) % 8 = 0 := by
      rw [hsh, hmod]
      omega
    rw [or_disjoint _ 2 hm8 (by norm_num)]
    omega
  refine ⟨rfl, rfl, rfl, rfl, rfl, rfl, ?_, by decide, hfin, by rw [henc]; omega⟩
  rw [henc]
  have htag : (p.addr + 3) &&& 7 = 3 := by
    rw [and_low3]
    omega
  have hdata : (p.addr + 3) &&& (2 ^ 64 - 8) = p.addr := by
    rw [mask_low3 _ hlt]
    omega
  simp only [OperationState.ofU64, htag, hdata, hmem]

/-- Witness for C5 at a concrete input. -/
theorem c5_state_roundtrip_witness :
    OperationState.ofU64 (fun _ => true) (OperationState.toU64 (.cancelled ⟨16, true⟩)) =
      some (.cancelled ⟨16, true⟩)
    ∧ OperationState.ofU64 (fun _ => true) (OperationState.toU64 .waiting) = some .waiting :=
  ⟨(c5_state_roundtrip (fun _ => true) ⟨16, true⟩ (by norm_num) (by norm_num) rfl).2.2.2.2.2.2.1,
   (c5_state_roundtrip (fun _ => true) ⟨16, true⟩ (by norm_num) (by norm_num) rfl).1⟩

/-- C1: for every slot table, op id and waker, `poll_submit` behaves as:
shadow Idle returns Ready(None) with nothing changed; shadow Submitting with
slot `Finished(n)`, `n < 0`, resets the shadow to Idle and returns
`Ready(Some(Err(Io(os_error(-n)))))`; with `n ≥ 0` it resets the shadow and
returns `Ready(Some(Ok(n as u32)))`; otherwise it re-registers the waker and
returns Pending. Consequently a slot error is returned exactly once: the
poll that follows an error finds the shadow Idle and returns Ready(None). -/
theorem c1_poll_submit (t : Operations) (i : Nat) (w : Waker) :
    (t.shadow i = .idle → t.poll_submit i w = (t, .ready none))
    ∧ (∀ n : Int, t.shadow i = .submitting →
        (t.slot i).state = .finished n →
        (n < 0 → t.poll_submit i w =
          ({ t with submissions := t.submissions.set i .idle },
           .ready (some (.err (.io (-n))))))
        ∧ (0 ≤ n → t.poll_submit i w =
          ({ t with submissions := t.submissions.set i .idle },
           .ready (some (.ok n.toNat)))))
    ∧ (t.shadow i = .submitting →
        (∀ n : Int, (t.slot i).state ≠ .finished n) →
        t.poll_submit i w =
          ({ t with ops := t.ops.set i (Operation.register i w (t.slot i)) },
           .pending))
    ∧ (∀ (t1 : Operations) (e : UError),
        t.poll_submit i w = (t1, .ready (some (.err e))) →
        t1.poll_submit i w = (t1, .ready none)) := by
  refine ⟨?_, ?_, ?_, ?_⟩
  · intro h
    simp [Operations.poll_submit, h]
  · intro n hs hf
    constructor
    · intro hneg
      simp [Operations.poll_submit, hs, hf, hneg]
    · intro hpos
      have hn : ¬ n < 0 := by omega
      simp [Operations.poll_submit, hs, hf, hn]
  · intro hs hne
    cases hstate : (t.slot i).state with
    | finished n => exact absurd hstate (hne n)
    | waiting => simp [Operations.poll_submit, hs, hstate]
    | cancelled p => simp [Operations.poll_submit, hs, hstate]
  · intro t1 e h
    cases hs : t.shadow i with
    | idle => simp [Operations.poll_submit, hs] at h
    | submitting =>
      cases hstate : (t.slot i).state with
      | waiting => simp [Operations.poll_submit, hs, hstate] at h
      | cancelled p => simp [Operations.poll_submit, hs, hstate] at h
      | finished n =>
        by_cases hneg : n < 0
        · simp [Operations.poll_submit, hs, hstate, hneg] at h
          have ht1 : t1 = { t with submissions := t.submissions.set i .idle } := h.1.symm
          have hidle : t1.shadow i = .idle := by
            rw [ht1]
            show (t.submissions.set i OperationPollState.idle).getD i .idle = .idle
            rw [getD_set_self]
            split <;> rfl
          simp [Operations.poll_submit, hidle]
        · simp [Operations.poll_submit, hs, hstate, hneg] at h

/-- Witness for C1: after a poll that returned the slot error `Err(Io(2))`
(from `Finished(-2)`), the next poll finds the shadow Idle and returns
Ready(None). -/
theorem c1_poll_submit_witness :
    (Operations.mk [⟨.finished (-2), List.replicate 4 Waker.noop⟩] [.idle]).poll_submit 0 ⟨1⟩
      = (⟨[⟨.finished (-2), List.replicate 4 Waker.noop⟩], [.idle]⟩, .ready none) :=
  (c1_poll_submit ⟨[⟨.finished (-2), List.replicate 4 Waker.noop⟩], [.submitting]⟩ 0 ⟨1⟩).2.2.2
    ⟨[⟨.finished (-2), List.replicate 4 Waker.noop⟩], [.idle]⟩ (.io 2) (by decide)

/-- C2: `Operation::wake(val)` swaps the slot state to `Finished(val)`
unconditionally; if the prior state was `Cancelled(payload)`, the payload box
is dropped after being read and the stored wakers are invoked only when the
payload wake bit is set; if the prior state was `Waiting`, the stored wakers
are invoked (and no payload is dropped). -/
theorem c2_wake (op : Operation) (val : Int) :
    (op.wake val).op.state = .finished val
    ∧ (∀ p, op.state = .cancelled p →
        (op.wake val).dropped = some p
        ∧ (p.wake = true → (op.wake val).woken = op.wakers)
        ∧ (p.wake = false → (op.wake val).woken = []))
    ∧ (op.state = .waiting → (op.wake val).woken = op.wakers ∧ (op.wake val).dropped = none) := by
  refine ⟨?_, ?_, ?_⟩
  · simp only [Operation.wake]
    split <;> rfl
  · intro p hp
    refine ⟨?_, ?_, ?_⟩
    · cases hw : p.wake <;>
        simp [Operation.wake, hp, OperationState.cancel_data, Option.all, hw]
    · intro hw
      simp [Operation.wake, hp, OperationState.cancel_data, Option.all, hw]
    · intro hw
      simp [Operation.wake, hp, OperationState.cancel_data, Option.all, hw]
  · intro hp
    simp [Operation.wake, hp, OperationState.cancel_data, Option.all]

/-- Witness for C2: waking a slot cancelled with a cleared wake bit drops the
payload without invoking any waker; waking a Waiting slot invokes them. -/
theorem c2_wake_witness :
    ((⟨.cancelled ⟨8, false⟩, [⟨5⟩]⟩ : Operation).wake 3).dropped = some ⟨8, false⟩
    ∧ ((⟨.cancelled ⟨8, false⟩, [⟨5⟩]⟩ : Operation).wake 3).woken = []
    ∧ ((⟨.waiting, [⟨5⟩]⟩ : Operation).wake 3).woken = [⟨5⟩] :=
  ⟨((c2_wake ⟨.cancelled ⟨8, false⟩, [⟨5⟩]⟩ 3).2.1 ⟨8, false⟩ rfl).1,
   ((c2_wake ⟨.cancelled ⟨8, false⟩, [⟨5⟩]⟩ 3).2.1 ⟨8, false⟩ rfl).2.2 rfl,
   ((c2_wake ⟨.waiting, [⟨5⟩]⟩ 3).2.2 rfl).1⟩

/-- Modelled from the spec wording of the claim, for comparison only: the
registration order the claim describes — the waker is written into its cell
FIRST, and then a compare-exchange moves the state from Finished (which also
serves as Idle) to Waiting, leaving any other state unchanged. -/
def registerSpecOrder (i : Nat) (w : Waker) (op : Operation) : Operation :=
  let op1 := Operation.registerWrite i w op
  match op1.state with
  | .finished _ => { op1 with state := .waiting }
  | _ => op1

/-- C3 counterexample: on a Cancelled slot the real `Operation::register`
still produces Waiting (it is a plain unconditional store, not a
compare-exchange from Finished/Idle), differing from the claimed
write-waker-then-CAS behaviour; moreover after the first half of `register`
(the state store) the slot is already Waiting while the cell still holds the
previous waker, so the waker is written AFTER the state transition, not
before it. -/
theorem c3_register_counterexample :
    Operation.register 0 ⟨2⟩ ⟨.cancelled ⟨8, false⟩, List.replicate 4 ⟨1⟩⟩ ≠
      registerSpecOrder 0 ⟨2⟩ ⟨.cancelled ⟨8, false⟩, List.replicate 4 ⟨1⟩⟩
    ∧ (Operation.registerStore ⟨.cancelled ⟨8, false⟩, List.replicate 4 ⟨1⟩⟩).state = .waiting
    ∧ (Operation.registerStore ⟨.cancelled ⟨8, false⟩, List.replicate 4 ⟨1⟩⟩).wakers =
        List.replicate 4 ⟨1⟩ :=
  ⟨by decide, rfl, rfl⟩

/-- C3 (amended): the waker-registration step stores Waiting into the state
word unconditionally — a plain store, not a compare-exchange; even a
Cancelled state is overwritten — and the waker is written into its cell
after that store: the intermediate state visible between the two steps is
Waiting with the previous waker still in the cell. -/
theorem c3_register (op : Operation) (i : Nat) (w : Waker) :
    Operation.register i w op = ⟨.waiting, op.wakers.set i w⟩
    ∧ (Operation.registerStore op).state = .waiting
    ∧ (Operation.registerStore op).wakers = op.wakers :=
  ⟨rfl, rfl, rfl⟩

theorem submit_err_mem (rt : UringData) (kernel : List KernelOutcome) (entry : Nat) :
    ∀ err rt1 k1, rt.submit kernel entry = (.err err, rt1, k1) →
      ∃ e, err = .io e ∧ KernelOutcome.errno e ∈ kernel := by
  induction kernel generalizing rt with
  | nil =>
    intro err rt1 k1 h
    by_cases hfull : rt.sq.length < rt.sqCapacity <;> simp [UringData.submit, hfull] at h
  | cons o rest ih =>
    intro err rt1 k1 h
    by_cases hfull : rt.sq.length < rt.sqCapacity
    · cases o with
      | ok => simp [UringData.submit, hfull] at h
      | errno e =>
        simp [UringData.submit, hfull] at h
        exact ⟨e, h.1.symm, by simp⟩
    · cases o with
      | ok =>
        rw [show rt.submit (.ok :: rest) entry =
              UringData.submit { rt with sq := [] } rest entry by
          simp [UringData.submit, hfull]] at h
        obtain ⟨e, he, hmem⟩ := ih { rt with sq := [] } err rt1 k1 h
        exact ⟨e, he, by simp [hmem]⟩
      | errno e =>
        simp [UringData.submit, hfull] at h
        exact ⟨e, h.1.symm, by simp⟩

/-- C4 counterexample: when the kernel submit fails, `start_submit` does NOT
leave the caller slot unchanged — the registration step that precedes the
submit has already stored Waiting into the slot state (and written the
waker), so a slot that was `Finished(0)` before the call is `Waiting` after
the failed call even though the error is returned. The shadow does stay
Idle. -/
theorem c4_start_submit_counterexample :
    (Operations.start_submit ⟨[Operation.new], [.idle]⟩ ⟨true, 1, []⟩
        [.errno 9] 77 0 ⟨5⟩).2.1.ops ≠ [Operation.new]
    ∧ (Operations.start_submit ⟨[Operation.new], [.idle]⟩ ⟨true, 1, []⟩
        [.errno 9] 77 0 ⟨5⟩).1 = .err (.io 9)
    ∧ (Operations.start_submit ⟨[Operation.new], [.idle]⟩ ⟨true, 1, []⟩
        [.errno 9] 77 0 ⟨5⟩).2.1.submissions = [.idle] := by
  refine ⟨by decide, by decide, by decide⟩

/-- C4 (amended): if the kernel submit step fails inside `UringData::submit`,
the errno is propagated to the caller as an `Io` error, and `start_submit`
returns that same error with the shadow poll states untouched (a shadow that
was Idle is still Idle — it is never set to Submitting on the error path);
the slot itself, however, has already been moved to Waiting with the waker
written, by the registration step that precedes the submit. -/
theorem c4_start_submit_error (t : Operations) (rt : UringData)
    (kernel : List KernelOutcome) (entry : Nat) (i : Nat) (w : Waker)
    (err : UError) (rt1 : UringData) (k1 : List KernelOutcome)
    (h : rt.submit kernel entry = (.err err, rt1, k1)) :
    (∃ e, err = .io e ∧ KernelOutcome.errno e ∈ kernel)
    ∧ t.start_submit rt kernel entry i w =
        (.err err,
         { t with ops := t.ops.set i (Operation.register i w (t.slot i)) },
         rt1, k1)
    ∧ (t.start_submit rt kernel entry i w).2.1.submissions = t.submissions := by
  refine ⟨submit_err_mem rt kernel entry err rt1 k1 h, ?_, ?_⟩
  · simp [Operations.start_submit, h]
  · simp [Operations.start_submit, h]

/-- Witness for C4 at a concrete input: a failing final kernel submit. -/
theorem c4_start_submit_error_witness :
    (∃ e, UError.io 9 = .io e ∧ KernelOutcome.errno e ∈ [KernelOutcome.errno 9])
    ∧ Operations.start_submit ⟨[Operation.new], [.idle]⟩ ⟨true, 1, []⟩
        [.errno 9] 77 0 ⟨5⟩ =
        (.err (.io 9),
         { Operations.mk [Operation.new] [.idle] with
             ops := [Operation.new].set 0
               (Operation.register 0 ⟨5⟩ ((⟨[Operation.new], [.idle]⟩ : Operations).slot 0)) },
         ⟨true, 1, [77]⟩, [])
    ∧ (Operations.start_submit ⟨[Operation.new], [.idle]⟩ ⟨true, 1, []⟩
        [.errno 9] 77 0 ⟨5⟩).2.1.submissions = [.idle] :=
  c4_start_submit_error ⟨[Operation.new], [.idle]⟩ ⟨true, 1, []⟩ [.errno 9] 77 0 ⟨5⟩
    (.io 9) ⟨true, 1, [77]⟩ [] (by decide)

theorem closeEntry_ne_pushed (slab : List (Nat × WorkerResource)) (id : Nat) :
    (closeEntry slab id).2 ≠ .pushedToCleanup := by
  unfold closeEntry
  cases h : slab.find? (fun p => p.1 == id) with
  | none => simp
  | some v =>
    obtain ⟨k, val⟩ := v
    cases hc : val.closing <;> cases hfd : val.fd <;> simp [hc, hfd]

/-- C6 counterexample: when no shadow is Submitting but the closing flag of
the slab entry is clear (a resource dropped without shutdown), the worker
does NOT release the fd without a kernel close: the `close!` macro only runs
`into_raw_fd()` behind `val.closing()`, so here the entry is dropped and the
`OwnedFd` drop issues a kernel close. -/
theorem c6_close_resource_counterexample :
    (closeResourceArm [(0, ⟨some 5, Operations.new_from_size, false⟩)] []
        ⟨0, Operations.new_from_size⟩).2.2 = .closedByDrop
    ∧ (closeResourceArm [(0, ⟨some 5, Operations.new_from_size, false⟩)] []
        ⟨0, Operations.new_from_size⟩).2.2 ≠ .releasedWithoutClose := by
  refine ⟨by decide, by decide⟩

/-- C6 (amended): the worker pushes a `CloseResource` snapshot onto the
cleanup list if and only if some slot of its Operations has shadow poll
state Submitting; otherwise it removes the slab entry, releasing the fd
without a kernel close exactly when the entry closing flag is set (a clear
flag means the fd is closed by the `OwnedFd` drop). This is so even though
the shadows are submitter-local (the worker does read them here) and cloning
an Operations table resets every shadow to Idle (the snapshot is the moved
user-side value, not a fresh clone). -/
theorem c6_close_resource (slab : List (Nat × WorkerResource)) (closing : List Resource)
    (r : Resource) :
    ((closeResourceArm slab closing r).2.2 = .pushedToCleanup ↔ r.ops.any_submitting = true)
    ∧ (r.ops.any_submitting = true →
        closeResourceArm slab closing r = (slab, closing ++ [r], .pushedToCleanup))
    ∧ (∀ k val, r.ops.any_submitting = false →
        slab.find? (fun p => p.1 == r.id) = some (k, val) →
        (closeResourceArm slab closing r).1 = slab.filter (fun p => p.1 != r.id)
        ∧ (closeResourceArm slab closing r).2.1 = closing
        ∧ (val.closing = true → val.fd.isSome = true →
            (closeResourceArm slab closing r).2.2 = .releasedWithoutClose)
        ∧ (val.closing = false → val.fd.isSome = true →
            (closeResourceArm slab closing r).2.2 = .closedByDrop))
    ∧ (∀ u : Operations,
        (Operations.clone u).any_submitting = false ∧ (Operations.clone u).ops = u.ops) := by
  refine ⟨?_, ?_, ?_, ?_⟩
  · by_cases ha : r.ops.any_submitting
    · simp [closeResourceArm, ha]
    · simp only [Bool.not_eq_true] at ha
      simp [closeResourceArm, ha, closeEntry_ne_pushed slab r.id]
  · intro ha
    simp [closeResourceArm, ha]
  · intro k val ha hf
    refine ⟨?_, ?_, ?_, ?_⟩
    · simp [closeResourceArm, ha, closeEntry, hf]
      cases hc : val.closing <;> cases hfd : val.fd <;> simp [hc, hfd]
    · simp [closeResourceArm, ha]
    · intro hc hfd
      obtain ⟨fd, hfd⟩ := Option.isSome_iff_exists.mp hfd
      simp [closeResourceArm, ha, closeEntry, hf, hc, hfd]
    · intro hc hfd
      obtain ⟨fd, hfd⟩ := Option.isSome_iff_exists.mp hfd
      simp [closeResourceArm, ha, closeEntry, hf, hc, hfd]
  · intro u
    constructor
    · simp [Operations.clone, Operations.any_submitting]
    · rfl

/-- Witness for C6 at concrete inputs: a snapshot with a Submitting shadow is
pushed to the cleanup list. -/
theorem c6_close_resource_witness :
    closeResourceArm [] [] ⟨0, ⟨[Operation.new], [.submitting]⟩⟩ =
      ([], [⟨0, ⟨[Operation.new], [.submitting]⟩⟩], .pushedToCleanup) :=
  (c6_close_resource [] [] ⟨0, ⟨[Operation.new], [.submitting]⟩⟩).2.1 (by decide)

theorem try_advance_ready (cr : ClosingResource) (w : Waker) (cr1 : ClosingResource) (b : Bool)
    (h : cr.try_advance_polls w = (cr1, .ready b)) :
    b = !cr1.resource.ops.any_submitting := by
  simp only [ClosingResource.try_advance_polls] at h
  split at h
  · simp at h
  · split at h
    · simp at h
    · split at h
      · simp at h
      · split at h
        · simp at h
        · rw [Prod.mk.injEq] at h
          obtain ⟨hcr, hb⟩ := h
          subst hcr
          cases hb
          rfl

theorem cleanupGo_emit (w : Waker) (l : List ClosingResource) :
    ∀ l1 r p, cleanupGo w l = (l1, some r, p) →
      r.ops.any_submitting = false ∧ l1.length + 1 = l.length := by
  induction l with
  | nil =>
    intro l1 r p h
    simp [cleanupGo] at h
  | cons cr rest ih =>
    intro l1 r p h
    rcases htap : cr.try_advance_polls w with ⟨cr1, pr⟩
    simp only [cleanupGo, htap] at h
    cases pr with
    | pending => simp at h
    | ready b =>
      cases b with
      | false =>
        rcases hres : cleanupGo w rest with ⟨rest1, em, pd⟩
        rw [hres] at h
        simp only [Prod.mk.injEq] at h
        obtain ⟨hl1, hem, hp⟩ := h
        rw [hem] at hres
        obtain ⟨hsub, hlen⟩ := ih rest1 r pd hres
        refine ⟨hsub, ?_⟩
        rw [← hl1]
        simp only [List.length_cons]
        omega
      | true =>
        simp only [Prod.mk.injEq] at h
        obtain ⟨hl1, hr, hp⟩ := h
        injection hr with hr2
        have hb := try_advance_ready cr w cr1 true htap
        rw [hr2] at hb
        constructor
        · cases hx : r.ops.any_submitting
          · rfl
          · rw [hx] at hb
            simp at hb
        · rw [← hl1]
          simp

/-- C7: the cleanup pipeline never emits a resource while any of its op slots
is still in flight: `CleanupStream::poll_next` yields a resource (removing it
from the pipeline) only when a full round of `try_advance_polls` — polling
every not-yet-polled slot and getting Ready from all four — observed no
shadow poll state of that resource still Submitting. -/
theorem c7_cleanup_no_inflight_emit (s : CleanupStream) (w : Waker)
    (s1 : CleanupStream) (r : Resource)
    (h : s.poll_next w = (s1, .ready (some r))) :
    r.ops.any_submitting = false ∧ s1.resources.length + 1 = s.resources.length := by
  unfold CleanupStream.poll_next at h
  rcases hgo : cleanupGo w s.resources with ⟨rs, em, p⟩
  rw [hgo] at h
  cases em with
  | none => simp at h
  | some r0 =>
    simp only [Prod.mk.injEq, PollRes.ready.injEq, Option.some.injEq] at h
    obtain ⟨hs1, hr⟩ := h
    subst hr
    obtain ⟨ha, hlen⟩ := cleanupGo_emit w s.resources rs r0 p hgo
    refine ⟨ha, ?_⟩
    rw [← hs1]
    exact hlen

/-- Witness for C7: a pipeline holding one resource whose shadows are all
Idle emits it on the first poll. -/
theorem c7_cleanup_no_inflight_emit_witness :
    (Resource.mk 3 Operations.new_from_size).ops.any_submitting = false
    ∧ (CleanupStream.mk []).resources.length + 1 =
        (CleanupStream.mk [ClosingResource.new ⟨3, Operations.new_from_size⟩]).resources.length :=
  c7_cleanup_no_inflight_emit ⟨[ClosingResource.new ⟨3, Operations.new_from_size⟩]⟩ ⟨7⟩
    ⟨[]⟩ ⟨3, Operations.new_from_size⟩ (by decide)

/-- C8: once the runtime alive flag is false, `UringDataHandle::load` yields
None, so a poll of a surviving handle (here the nop stream) short-circuits to
the `NoRuntime` error without touching the slot table or the ring; a channel
send to a dropped worker (receiver gone, so the weak upgrade fails) also
returns `NoRuntime`; and `destroy` (run when the worker returns) makes every
subsequent `load` yield None. -/
theorem c8_no_runtime {α : Type} (h : UringDataHandle) (resourceId : Nat) (t : Operations)
    (kernel : List KernelOutcome) (w : Waker) (st : ChannelState α) (msg : α)
    (halive : h.data.alive = false) (hrecv : st.receiverAlive = false) :
    h.load = none
    ∧ NopStream.poll_next h resourceId t kernel w =
        (t, h, kernel, .ready (some (.err .noRuntime)))
    ∧ ChannelSend.send st msg = (.err .noRuntime, st)
    ∧ (∀ g : UringDataHandle, g.destroy.load = none) := by
  have hl : h.load = none := by simp [UringDataHandle.load, halive]
  refine ⟨hl, ?_, ?_, ?_⟩
  · simp [NopStream.poll_next, hl]
  · simp [ChannelSend.send, hrecv]
  · intro g
    simp [UringDataHandle.destroy, UringDataHandle.load]

/-- Witness for C8 at concrete inputs. -/
theorem c8_no_runtime_witness :
    (UringDataHandle.mk ⟨false, 1024, []⟩).load = none
    ∧ NopStream.poll_next ⟨⟨false, 1024, []⟩⟩ 0 Operations.new_from_size [] ⟨1⟩ =
        (Operations.new_from_size, ⟨⟨false, 1024, []⟩⟩, [],
         .ready (some (.err .noRuntime)))
    ∧ ChannelSend.send (⟨[], true, 0, 0, false⟩ : ChannelState Nat) 5 =
        (.err .noRuntime, ⟨[], true, 0, 0, false⟩)
    ∧ (∀ g : UringDataHandle, g.destroy.load = none) :=
  c8_no_runtime ⟨⟨false, 1024, []⟩⟩ 0 Operations.new_from_size [] ⟨1⟩
    (⟨[], true, 0, 0, false⟩ : ChannelState Nat) 5 rfl rfl

/-- C10: when every sender has been dropped (weak count zero) and the
receiver cached length from its last drain is zero, `ChannelRecv::poll_next`
returns Ready(None) with the state untouched — the shared queue is never
inspected, so messages that a successful `send` pushed before the last
sender dropped can remain in the queue and are never delivered. -/
theorem c10_channel_drop_loses_messages {α : Type} (st : ChannelState α) (msg : α)
    (hlen : st.len = 0) (hweak : st.weakCount = 0) :
    ChannelRecv.poll_next st = (st, .ready none)
    ∧ (st.receiverAlive = true →
        ChannelSend.send st msg =
          (.ok (), { st with queue := st.queue ++ [msg], empty := false })) := by
  constructor
  · simp [ChannelRecv.poll_next, hlen, hweak]
  · intro hr
    simp [ChannelSend.send, hr]

/-- Witness for C10: a queue still holding the message 42 is abandoned —
poll_next ends the stream with the message still queued — and a send into
this state would have returned Ok. -/
theorem c10_channel_drop_loses_messages_witness :
    ChannelRecv.poll_next (⟨[42], false, 0, 0, true⟩ : ChannelState Nat) =
      (⟨[42], false, 0, 0, true⟩, .ready none)
    ∧ (true = true →
        ChannelSend.send (⟨[42], false, 0, 0, true⟩ : ChannelState Nat) 7 =
          (.ok (), ⟨[42, 7], false, 0, 0, true⟩)) :=
  c10_channel_drop_loses_messages (⟨[42], false, 0, 0, true⟩ : ChannelState Nat) 7 rfl rfl

end AsyncUring
